import Mathlib

/-!
Shallow embedding of the X-Ray instrumentation client
(`src/client.ts`, `src/config.ts`, `src/types.ts`).

The TypeScript client is a small state machine: private fields
(`currentRunId`, `currentRun`, `stepPosition`, `degraded`, `pendingSteps`,
`pendingCandidates`) mutated by `run`, `step`, the three `ingest*`
operations and `flush`.  We embed it as explicit state passing over a
`World` record that carries

* the client's private state (`ClientState`),
* a counter used to generate fresh identifiers (embedding `uuidv4()`),
* a logical clock (embedding `new Date()`; timestamps are `Nat` ticks),
* an oracle of pending fetch outcomes (embedding the behaviour of the
  external `fetch`; an empty oracle means every call succeeds),
* a trace `emits` of records handed to the transport component (one entry
  per `ingestRun` / `ingestStep` / `ingestCandidates` invocation), and
* a trace `net` of actual network calls issued (one entry per `fetch`).

Caller-supplied stage functions are embedded as `World → World × Except
String α`: arbitrary code that may use the client and either returns a
value or throws.  Thrown errors are embedded as `String` (the TS code
itself turns a non-OK HTTP response into
`new Error("HTTP <status>: <statusText>")`, i.e. into a string message).

The shape inspection `step` performs on its result
(`Array.isArray(result)`, then `result && typeof result === 'object' &&
'length' in result`, else scalar) is embedded by the inductive `JSValue`
whose three constructors correspond exactly to the three branches; the
numeric `length` values are embedded as `Nat`.
-/

namespace XRay

/-- Capture levels (`CaptureLevel` in src/types.ts). -/
inductive CaptureLevel
  | NONE
  | SUMMARY
  | FULL
deriving DecidableEq, Repr

/-- Step types (`StepType` in src/types.ts). -/
inductive StepType
  | INPUT
  | GENERATION
  | RETRIEVAL
  | FILTER
  | RANKING
  | EVALUATION
  | SELECTION
deriving DecidableEq, Repr

/-- Environments (`Environment` in src/types.ts). -/
inductive Environment
  | DEV
  | STAGING
  | PROD
deriving DecidableEq, Repr

/-- Opaque string-keyed maps (`RunMetadata`, `StepMetrics`,
`DecisionArtifacts` in src/types.ts); their contents are never inspected
by the client, so we embed them as association lists over strings. -/
abbrev KVMap := List (String × String)

/-- Client configuration (`XRayConfig` in src/config.ts).  A missing
`apiUrl` is embedded as `none` (the TS code tests `!this.config.apiUrl`). -/
structure XRayConfig where
  apiUrl : Option String
  apiKey : Option String
  defaultCaptureLevel : CaptureLevel
  enableAsyncIngestion : Bool
  batchSize : Nat
  flushIntervalMs : Nat
  degradeOnError : Bool
deriving DecidableEq, Repr

/-- `defaultConfig` in src/config.ts. -/
def defaultConfig : XRayConfig :=
  { apiUrl := none
    apiKey := none
    defaultCaptureLevel := CaptureLevel.NONE
    enableAsyncIngestion := true
    batchSize := 100
    flushIntervalMs := 5000
    degradeOnError := true }

/-- `Candidate` in src/types.ts (content and metadata are opaque). -/
structure Candidate where
  candidateId : String
  content : Option String
  metadata : KVMap
deriving DecidableEq, Repr

/-- `Run` in src/types.ts.  Timestamps are logical-clock ticks. -/
structure Run where
  runId : String
  pipelineName : String
  pipelineVersion : String
  environment : Environment
  startedAt : Nat
  endedAt : Option Nat
  metadata : Option KVMap
deriving DecidableEq, Repr

/-- `Step` in src/types.ts.  `runId` is `Option String` because the TS
code copies the nullable field `this.currentRunId` into the record at
build time.  `dropRatio` is an exact rational. -/
structure Step where
  stepId : String
  runId : Option String
  stepType : StepType
  stepName : String
  position : Nat
  metrics : KVMap
  candidatesIn : Nat
  candidatesOut : Nat
  dropRatio : ℚ
  captureLevel : CaptureLevel
  artifacts : Option KVMap
  startedAt : Nat
  endedAt : Option Nat
deriving DecidableEq, Repr

/-- `StepOptions` in src/types.ts. -/
structure StepOptions where
  captureLevel : Option CaptureLevel
  candidates : Option (List Candidate)
  artifacts : Option KVMap
  metrics : Option KVMap
deriving DecidableEq, Repr

/-- `RunOptions` in src/types.ts. -/
structure RunOptions where
  environment : Option Environment
  metadata : Option KVMap
deriving DecidableEq, Repr

/-- The three result shapes distinguished by `XRayClient.step`
(src/client.ts lines 84-97): `array n` is a JS array of length `n`
(`Array.isArray(result)`); `objWithLength m` is a truthy non-array object
with a numeric `length` property equal to `m` (`result && typeof result
=== 'object' && 'length' in result`); `scalarLike` is every other value. -/
inductive JSValue
  | array (length : Nat)
  | objWithLength (length : Nat)
  | scalarLike
deriving DecidableEq, Repr

/-- One record handed to the transport component: an `ingestRun`,
`ingestStep` or `ingestCandidates` invocation. -/
inductive Emit
  | runRec (r : Run)
  | stepRec (s : Step)
  | candidateBatch (stepId : String) (candidates : List Candidate)
deriving DecidableEq, Repr

/-- One actual network call (`fetch` against `/api/v1/runs`, `/steps`,
`/candidates`). -/
inductive NetEvent
  | postRun (r : Run)
  | postStep (s : Step)
  | postCandidates (stepId : String) (candidates : List Candidate)
deriving DecidableEq, Repr

/-- The part of a `fetch` `Response` the client inspects. -/
structure HttpResponse where
  ok : Bool
  status : Nat
  statusText : String
deriving DecidableEq, Repr

/-- Outcome of one `fetch` call: a resolved response, or a rejected
promise (network error) carrying its message. -/
inductive FetchOutcome
  | success (resp : HttpResponse)
  | reject (msg : String)
deriving DecidableEq, Repr

/-- The private mutable fields of `XRayClient` (src/client.ts lines 5-12). -/
structure ClientState where
  config : XRayConfig
  currentRunId : Option String
  currentRun : Option Run
  stepPosition : Nat
  degraded : Bool
  pendingSteps : List Step
  pendingCandidates : List (String × List Candidate)
deriving DecidableEq, Repr

/-- The whole execution state: client state, fresh-id counter (for
`uuidv4`), logical clock (for `new Date`), the fetch-outcome oracle, and
the two observation traces. -/
structure World where
  cs : ClientState
  nextId : Nat
  clock : Nat
  responses : List FetchOutcome
  emits : List Emit
  net : List NetEvent
deriving DecidableEq, Repr

/-- Embeds `uuidv4()`: returns a fresh identifier and bumps the counter. -/
def freshId (w : World) : String × World :=
  ("uuid-" ++ toString w.nextId, { w with nextId := w.nextId + 1 })

/-- Embeds `new Date()`: returns the current tick and advances the clock. -/
def now (w : World) : Nat × World :=
  (w.clock, { w with clock := w.clock + 1 })

/-- `XRayClient.handleDegradation` (src/client.ts lines 288-292): sets the
degraded flag; there is no code path that ever clears it. -/
def handleDegradation (cs : ClientState) : ClientState :=
  if cs.degraded then cs else { cs with degraded := true }

/-- The `catch` pattern shared by the ingest operations: degrade only when
`config.degradeOnError` is set. -/
def degradeOnFailure (cs : ClientState) : ClientState :=
  if cs.config.degradeOnError then handleDegradation cs else cs

/-- Embeds one `fetch` call: records the network event and consumes the
next oracle outcome (an exhausted oracle yields a 200 OK response). -/
def doFetch (ev : NetEvent) (w : World) : FetchOutcome × World :=
  let w1 := { w with net := w.net ++ [ev] }
  match w1.responses with
  | [] => (FetchOutcome.success { ok := true, status := 200, statusText := "OK" }, w1)
  | r :: rest => (r, { w1 with responses := rest })

/-- The error message the client builds from a non-OK response:
`new Error("HTTP <status>: <statusText>")` (src/client.ts line 170). -/
def httpErrorMsg (resp : HttpResponse) : String :=
  "HTTP " ++ toString resp.status ++ ": " ++ resp.statusText

/-- `XRayClient.ingestRun` (src/client.ts lines 147-178).  The `Emit`
trace records the hand-off of the record to the transport component; the
transport contract (degraded or unconfigured endpoint means silent no-op)
is the guard below.  A non-OK response or a rejected fetch degrades the
client (when so configured) and re-raises: the error propagates to the
caller of `ingestRun`. -/
def ingestRun (run : Run) (w : World) : World × Except String Unit :=
  let w0 := { w with emits := w.emits ++ [Emit.runRec run] }
  if w0.cs.degraded || w0.cs.config.apiUrl.isNone then
    (w0, Except.ok ())
  else
    match doFetch (NetEvent.postRun run) w0 with
    | (FetchOutcome.success resp, w1) =>
      if resp.ok then (w1, Except.ok ())
      else ({ w1 with cs := degradeOnFailure w1.cs }, Except.error (httpErrorMsg resp))
    | (FetchOutcome.reject msg, w1) =>
      ({ w1 with cs := degradeOnFailure w1.cs }, Except.error msg)

/-- `XRayClient.ingestStep` (src/client.ts lines 180-221).  When
asynchronous ingestion is enabled the record is appended to
`pendingSteps` instead of being sent.  In synchronous mode a failed
submission degrades the client (when so configured) but is swallowed:
`ingestStep` never throws. -/
def ingestStep (step : Step) (w : World) : World :=
  let w0 := { w with emits := w.emits ++ [Emit.stepRec step] }
  if w0.cs.degraded || w0.cs.config.apiUrl.isNone then
    w0
  else if w0.cs.config.enableAsyncIngestion then
    { w0 with cs := { w0.cs with pendingSteps := w0.cs.pendingSteps ++ [step] } }
  else
    match doFetch (NetEvent.postStep step) w0 with
    | (FetchOutcome.success resp, w1) =>
      if resp.ok then w1 else { w1 with cs := degradeOnFailure w1.cs }
    | (FetchOutcome.reject _, w1) => { w1 with cs := degradeOnFailure w1.cs }

/-- `XRayClient.ingestCandidates` (src/client.ts lines 223-257).  Same
structure as `ingestStep`, over the candidate queue. -/
def ingestCandidates (stepId : String) (candidates : List Candidate) (w : World) : World :=
  let w0 := { w with emits := w.emits ++ [Emit.candidateBatch stepId candidates] }
  if w0.cs.degraded || w0.cs.config.apiUrl.isNone then
    w0
  else if w0.cs.config.enableAsyncIngestion then
    { w0 with cs := { w0.cs with pendingCandidates := w0.cs.pendingCandidates ++ [(stepId, candidates)] } }
  else
    match doFetch (NetEvent.postCandidates stepId candidates) w0 with
    | (FetchOutcome.success resp, w1) =>
      if resp.ok then w1 else { w1 with cs := degradeOnFailure w1.cs }
    | (FetchOutcome.reject _, w1) => { w1 with cs := degradeOnFailure w1.cs }

/-- `s => Object.keys(s).length > 0` (src/client.ts line 264): a `Step`
object literal always has keys, so the predicate is constantly true. -/
def stepHasKeys (_ : Step) : Bool := true

/-- `XRayClient.flush` (src/client.ts lines 259-286).  Early return when
degraded or unconfigured; otherwise both queues are cleared and each
removed record is passed back through `ingestStep` / `ingestCandidates`.
Those callees never throw, so the surrounding `try`/`catch` has no
effect and is not modelled.  The `Promise.all` is sequentialised: no
network call is ever issued by these callees in asynchronous mode (they
re-buffer), and in synchronous mode the queues are empty, so ordering is
immaterial. -/
def flush (w : World) : World :=
  if w.cs.degraded || w.cs.config.apiUrl.isNone then
    w
  else
    let stepsToFlush := w.cs.pendingSteps.filter stepHasKeys
    let candidatesToFlush := w.cs.pendingCandidates
    let w1 := { w with cs := { w.cs with pendingSteps := [], pendingCandidates := [] } }
    let w2 := stepsToFlush.foldl (fun acc s => ingestStep s acc) w1
    candidatesToFlush.foldl (fun acc p => ingestCandidates p.1 p.2 acc) w2

/-- A caller-supplied stage function as `step` sees it: arbitrary code
over the world, producing a JS value or throwing. -/
abbrev StageFn := World → World × Except String JSValue

/-- A stage function that touches nothing and finishes with a fixed
outcome. -/
def constStage (o : Except String JSValue) : StageFn := fun w => (w, o)

/-- A run-level stage function that touches nothing and finishes with a
fixed outcome. -/
def constOutcome {T : Type} (o : Except String T) :
    World → World × Except String T := fun w => (w, o)

/-- The count derivation of `XRayClient.step` on success (src/client.ts
lines 84-97), returning `(candidatesIn, candidatesOut)`.  In the array
branch `if (options.candidates)` is true for any supplied list (a JS
array, even empty, is truthy), so a supplied empty list yields
`candidatesIn = 0`.  In the object-with-length branch the code uses
`options.candidates?.length || candidatesOut`, and JS `||` treats the
number `0` as falsy, so a supplied empty list falls back to
`candidatesOut`.  In the scalar branch both counts are 1 regardless of
any supplied list. -/
def deriveCounts (result : JSValue) (candidates : Option (List Candidate)) : Nat × Nat :=
  match result with
  | JSValue.array n =>
    match candidates with
    | some cs => (cs.length, n)
    | none => (n, n)
  | JSValue.objWithLength m =>
    match candidates with
    | some cs => (if cs.length = 0 then m else cs.length, m)
    | none => (m, m)
  | JSValue.scalarLike => (1, 1)

/-- `const dropRatio = candidatesIn > 0 ? 1 - candidatesOut / candidatesIn : 0`
(src/client.ts line 99). -/
def computeDropRatio (cIn cOut : Nat) : ℚ :=
  if 0 < cIn then 1 - (cOut : ℚ) / (cIn : ℚ) else 0

/-- The active-run body of `XRayClient.step` (src/client.ts lines 72-144):
fresh step id, position assignment (post-increment), capture-level
resolution, start time, stage invocation, then the success path (count
derivation, record build, step emission, conditional candidate emission)
or the failure path (record with the pre-initialised counts, emission,
re-raise). -/
def stepActive (ty : StepType) (nm : String) (opts : StepOptions) (fn : StageFn)
    (w : World) : World × Except String JSValue :=
  let fid := freshId w
  let stepId := fid.1
  let w1 := fid.2
  let position := w1.cs.stepPosition
  let w2 := { w1 with cs := { w1.cs with stepPosition := position + 1 } }
  let captureLevel := opts.captureLevel.getD w2.cs.config.defaultCaptureLevel
  let st := now w2
  let startedAt := st.1
  let w3 := st.2
  match fn w3 with
  | (w4, Except.ok result) =>
    let counts := deriveCounts result opts.candidates
    let en := now w4
    let endedAt := en.1
    let w5 := en.2
    let stepRecord : Step :=
      { stepId := stepId
        runId := w5.cs.currentRunId
        stepType := ty
        stepName := nm
        position := position
        metrics := opts.metrics.getD []
        candidatesIn := counts.1
        candidatesOut := counts.2
        dropRatio := computeDropRatio counts.1 counts.2
        captureLevel := captureLevel
        artifacts := opts.artifacts
        startedAt := startedAt
        endedAt := some endedAt }
    let w6 := ingestStep stepRecord w5
    let w7 :=
      match opts.candidates with
      | some cs =>
        if captureLevel = CaptureLevel.FULL then ingestCandidates stepId cs w6 else w6
      | none => w6
    (w7, Except.ok result)
  | (w4, Except.error e) =>
    let en := now w4
    let endedAt := en.1
    let w5 := en.2
    let stepRecord : Step :=
      { stepId := stepId
        runId := w5.cs.currentRunId
        stepType := ty
        stepName := nm
        position := position
        metrics := opts.metrics.getD []
        candidatesIn := 0
        candidatesOut := 0
        dropRatio := 1
        captureLevel := captureLevel
        artifacts := opts.artifacts
        startedAt := startedAt
        endedAt := some endedAt }
    let w6 := ingestStep stepRecord w5
    (w6, Except.error e)

/-- `XRayClient.step` (src/client.ts lines 62-145): with no active run
the call is the bare stage invocation (`if (!this.currentRunId) return
fn()`); otherwise the active-run body runs. -/
def stepClient (ty : StepType) (nm : String) (opts : StepOptions) (fn : StageFn)
    (w : World) : World × Except String JSValue :=
  match w.cs.currentRunId with
  | none => fn w
  | some _ => stepActive ty nm opts fn w

/-- The opening of `XRayClient.run` (src/client.ts lines 24-36): builds
the `Run` record (environment defaulted to `PROD`), installs it as the
single active run context and resets the step-position counter to 0. -/
def startRun (pipelineName pipelineVersion : String) (opts : RunOptions)
    (w : World) : Run × World :=
  let fid := freshId w
  let runId := fid.1
  let w1 := fid.2
  let st := now w1
  let run0 : Run :=
    { runId := runId
      pipelineName := pipelineName
      pipelineVersion := pipelineVersion
      environment := opts.environment.getD Environment.PROD
      startedAt := st.1
      endedAt := none
      metadata := opts.metadata }
  (run0,
    { st.2 with
      cs := { st.2.cs with
              currentRunId := some runId
              currentRun := some run0
              stepPosition := 0 } })

/-- `this.currentRun.endedAt = new Date()` followed by re-installing the
updated record (src/client.ts lines 43-44 and 50-51): returns the updated
run record and the world holding it. -/
def endUpdateWorld (cr : Run) (w : World) : Run × World :=
  let t := now w
  let cr1 := { cr with endedAt := some t.1 }
  (cr1, { t.2 with cs := { t.2.cs with currentRun := some cr1 } })

/-- The end-of-run emission shared by both arms of `run`'s `try`/`catch`
(src/client.ts lines 42-53): if an active run record is still present,
set its end time and submit the updated record.  When that submission
itself throws, its error propagates in place of `outcome` — in the
`catch` arm the original stage error is never re-thrown (`throw error`
is unreachable past a throwing `await`), and in the `try` arm the
`return` is never reached. -/
def endRunEmission {T : Type} (outcome : Except String T) (w : World) :
    World × Except String T :=
  match w.cs.currentRun with
  | some cr =>
    let u := endUpdateWorld cr w
    match ingestRun u.1 u.2 with
    | (w3, Except.ok _) => (w3, outcome)
    | (w3, Except.error e2) => (w3, Except.error e2)
  | none => (w, outcome)

/-- The `try`/`catch` body of `XRayClient.run` (src/client.ts lines
38-53): submit the run-created record (a throw here skips the stage
function and propagates), invoke the stage function, then perform the
end-of-run emission with the stage's outcome. -/
def runBody {T : Type} (run0 : Run) (fn : World → World × Except String T)
    (w : World) : World × Except String T :=
  match ingestRun run0 w with
  | (w1, Except.error e) => (w1, Except.error e)
  | (w1, Except.ok _) =>
    let r := fn w1
    endRunEmission r.2 r.1

/-- The `finally` block of `XRayClient.run` (src/client.ts lines 54-59):
drain the pending queues, then clear the run context and reset the
step-position counter. -/
def finishRun (w : World) : World :=
  let w1 := flush w
  { w1 with
    cs := { w1.cs with currentRunId := none, currentRun := none, stepPosition := 0 } }

/-- `XRayClient.run` (src/client.ts lines 18-60). -/
def runClient {T : Type} (pipelineName pipelineVersion : String)
    (fn : World → World × Except String T) (opts : RunOptions)
    (w : World) : World × Except String T :=
  let s := startRun pipelineName pipelineVersion opts w
  let b := runBody s.1 fn s.2
  (finishRun b.1, b.2)

/-- Projection of the step records out of an emission trace. -/
def stepEmits (l : List Emit) : List Step :=
  l.filterMap (fun e =>
    match e with
    | Emit.stepRec s => some s
    | _ => none)

/-- Projection of the candidate batches out of an emission trace. -/
def candidateEmits (l : List Emit) : List (String × List Candidate) :=
  l.filterMap (fun e =>
    match e with
    | Emit.candidateBatch sid cs => some (sid, cs)
    | _ => none)

/-- The positions of the step records in an emission trace, in emission
order. -/
def emittedPositions (l : List Emit) : List Nat :=
  (stepEmits l).map Step.position

/-- The emissions an execution added on top of those already present in
the starting world. -/
def newEmits (w wFinal : World) : List Emit :=
  wFinal.emits.drop w.emits.length

/-- Data of one `step` invocation whose stage function touches nothing:
used to state properties of sequences of step calls. -/
structure StepInv where
  stepType : StepType
  stepName : String
  opts : StepOptions
  outcome : Except String JSValue

/-- Runs a list of `step` invocations in order. -/
def runSteps (invs : List StepInv) (w : World) : World :=
  match invs with
  | [] => w
  | inv :: rest =>
    runSteps rest (stepClient inv.stepType inv.stepName inv.opts (constStage inv.outcome) w).1

/-- A fetch outcome that neither rejects nor carries a non-OK response. -/
def FetchOutcome.isClean : FetchOutcome → Bool
  | FetchOutcome.success resp => resp.ok
  | FetchOutcome.reject _ => false

/-- Every outcome the oracle will produce is clean (so no transport call
will fail). -/
def cleanResponses (l : List FetchOutcome) : Bool :=
  l.all FetchOutcome.isClean

/-- The benign side condition under which no run submission can throw:
clean oracle, or degraded, or no endpoint. -/
def benign (w : World) : Prop :=
  cleanResponses w.responses = true ∨ w.cs.degraded = true ∨ w.cs.config.apiUrl = none

/-- The step record `XRayClient.step` builds on the success path when the
stage function leaves the world alone, expressed as a function of the
starting world (the fresh id is `nextId`, the start tick is the clock
after the id draw, the end tick one later). -/
def okRecord (ty : StepType) (nm : String) (opts : StepOptions) (v : JSValue)
    (w : World) : Step :=
  { stepId := "uuid-" ++ toString w.nextId
    runId := w.cs.currentRunId
    stepType := ty
    stepName := nm
    position := w.cs.stepPosition
    metrics := opts.metrics.getD []
    candidatesIn := (deriveCounts v opts.candidates).1
    candidatesOut := (deriveCounts v opts.candidates).2
    dropRatio := computeDropRatio (deriveCounts v opts.candidates).1
      (deriveCounts v opts.candidates).2
    captureLevel := opts.captureLevel.getD w.cs.config.defaultCaptureLevel
    artifacts := opts.artifacts
    startedAt := w.clock
    endedAt := some (w.clock + 1) }

/-- The step record `XRayClient.step` builds on the failure path when the
stage function leaves the world alone: the counts still hold their
pre-initialised value 0 (they are only assigned after the stage function
resolves), `candidatesOut = 0` and `dropRatio = 1` are forced. -/
def errRecord (ty : StepType) (nm : String) (opts : StepOptions) (w : World) : Step :=
  { stepId := "uuid-" ++ toString w.nextId
    runId := w.cs.currentRunId
    stepType := ty
    stepName := nm
    position := w.cs.stepPosition
    metrics := opts.metrics.getD []
    candidatesIn := 0
    candidatesOut := 0
    dropRatio := 1
    captureLevel := opts.captureLevel.getD w.cs.config.defaultCaptureLevel
    artifacts := opts.artifacts
    startedAt := w.clock
    endedAt := some (w.clock + 1) }

/-- The world as it stands at record-build time in the active step body
when the stage function touches nothing: id drawn (`nextId` bumped),
position counter incremented, and both the start and the end tick drawn
from the clock. -/
def postStage (w : World) : World :=
  { w with cs := { w.cs with stepPosition := w.cs.stepPosition + 1 },
           nextId := w.nextId + 1,
           clock := w.clock + 2 }

/-- The conditional candidate emission at the end of the success path
(src/client.ts lines 120-122). -/
def candPhase (opts : StepOptions) (sid : String) (cl : CaptureLevel)
    (w : World) : World :=
  match opts.candidates with
  | some cs => if cl = CaptureLevel.FULL then ingestCandidates sid cs w else w
  | none => w

/-- The emissions the candidate phase adds: one batch exactly when the
effective capture level is `FULL` and a candidate list was supplied. -/
def candTail (opts : StepOptions) (sid : String) (cl : CaptureLevel) : List Emit :=
  match opts.candidates with
  | some cs => if cl = CaptureLevel.FULL then [Emit.candidateBatch sid cs] else []
  | none => []

/-- Spec-side reading of the out-count (for the amended C7): an ordered
sequence contributes its length, an object exposing a length property
contributes that value, anything else counts as one output. -/
def specCandidatesOut : JSValue → Nat
  | JSValue.array n => n
  | JSValue.objWithLength m => m
  | JSValue.scalarLike => 1

/-- Spec-side reading of the in-count (for the amended C7): for sequence
results the supplied list's length when provided (else the out-count);
for length-exposing object results the supplied list's length when
provided and non-zero (else the out-count); for all other results always
1, even when a list was supplied. -/
def specCandidatesIn : JSValue → Option (List Candidate) → Nat
  | JSValue.array _, some cs => cs.length
  | JSValue.array n, none => n
  | JSValue.objWithLength m, some cs => if cs.length = 0 then m else cs.length
  | JSValue.objWithLength m, none => m
  | JSValue.scalarLike, _ => 1

/-- Spec-side drop ratio: `1 − out/in` when the in-count is positive,
else 0. -/
def specDropRatio (v : JSValue) (cands : Option (List Candidate)) : ℚ :=
  if 0 < specCandidatesIn v cands then
    1 - (specCandidatesOut v : ℚ) / (specCandidatesIn v cands : ℚ)
  else 0

end XRay

namespace XRay

/-! ### Concrete sample values used by witnesses and counterexamples -/

/-- A sample candidate. -/
def sampleCandidate (i : Nat) : Candidate :=
  { candidateId := "c" ++ toString i, content := none, metadata := [] }

/-- The empty option record (`{}` at a `step` call site). -/
def noStepOptions : StepOptions :=
  { captureLevel := none, candidates := none, artifacts := none, metrics := none }

/-- The empty option record (`{}` at a `run` call site). -/
def noRunOptions : RunOptions :=
  { environment := none, metadata := none }

/-- The default configuration with an endpoint configured. -/
def liveConfig : XRayConfig :=
  { defaultConfig with apiUrl := some "http://localhost:3000" }

/-- A sample active run record. -/
def sampleRun : Run :=
  { runId := "uuid-0", pipelineName := "p", pipelineVersion := "v",
    environment := Environment.PROD, startedAt := 0, endedAt := none, metadata := none }

/-- A sample step record (as would sit in the pending queue). -/
def sampleStep : Step :=
  { stepId := "uuid-9", runId := some "uuid-0", stepType := StepType.FILTER,
    stepName := "f", position := 0, metrics := [], candidatesIn := 3,
    candidatesOut := 1, dropRatio := computeDropRatio 3 1,
    captureLevel := CaptureLevel.SUMMARY, artifacts := none,
    startedAt := 0, endedAt := some 1 }

/-- A world with an active run, asynchronous ingestion (the default) and a
configured endpoint. -/
def activeWorld : World :=
  { cs := { config := liveConfig, currentRunId := some "uuid-0",
            currentRun := some sampleRun, stepPosition := 0, degraded := false,
            pendingSteps := [], pendingCandidates := [] },
    nextId := 1, clock := 2, responses := [], emits := [], net := [] }

/-- A degraded world holding buffered records. -/
def degradedWorld : World :=
  { cs := { config := liveConfig, currentRunId := none, currentRun := none,
            stepPosition := 0, degraded := true,
            pendingSteps := [sampleStep],
            pendingCandidates := [("uuid-9", [sampleCandidate 0])] },
    nextId := 1, clock := 2, responses := [], emits := [], net := [] }

/-- A healthy world (endpoint configured, asynchronous mode, not degraded)
holding buffered records, as at end-of-run drain time. -/
def queuedWorld : World :=
  { cs := { config := liveConfig, currentRunId := some "uuid-0",
            currentRun := some sampleRun, stepPosition := 1, degraded := false,
            pendingSteps := [sampleStep],
            pendingCandidates := [("uuid-9", [sampleCandidate 0])] },
    nextId := 2, clock := 4, responses := [], emits := [], net := [] }

/-- A healthy configured world whose next fetch rejects with a network
error. -/
def rejectWorld : World :=
  { cs := { config := liveConfig, currentRunId := none, currentRun := none,
            stepPosition := 0, degraded := false, pendingSteps := [],
            pendingCandidates := [] },
    nextId := 0, clock := 0, responses := [FetchOutcome.reject "ECONNREFUSED"],
    emits := [], net := [] }

/-- An idle world whose oracle lets the run-created submission succeed and
makes the run-updated submission fail with HTTP 500. -/
def updateFailsWorld : World :=
  { cs := { config := liveConfig, currentRunId := none, currentRun := none,
            stepPosition := 0, degraded := false, pendingSteps := [],
            pendingCandidates := [] },
    nextId := 0, clock := 0,
    responses := [FetchOutcome.success { ok := true, status := 200, statusText := "OK" },
                  FetchOutcome.success { ok := false, status := 500, statusText := "ERR" }],
    emits := [], net := [] }

/-- Step options supplying two candidates, no explicit capture level. -/
def twoCandOptions : StepOptions :=
  { captureLevel := none, candidates := some [sampleCandidate 0, sampleCandidate 1],
    artifacts := none, metrics := none }

/-- Step options supplying one candidate at explicit `FULL` capture. -/
def fullCandOptions : StepOptions :=
  { captureLevel := some CaptureLevel.FULL, candidates := some [sampleCandidate 0],
    artifacts := none, metrics := none }

/-- Step options supplying an empty candidate list. -/
def emptyCandOptions : StepOptions :=
  { captureLevel := none, candidates := some [], artifacts := none, metrics := none }

/-- A two-invocation sequence, the second of which fails. -/
def demoInvs : List StepInv :=
  [{ stepType := StepType.RETRIEVAL, stepName := "fetch-items", opts := noStepOptions,
     outcome := Except.ok (JSValue.array 3) },
   { stepType := StepType.FILTER, stepName := "price-filter", opts := noStepOptions,
     outcome := Except.error "boom" }]

end XRay

namespace XRay

/-! ### Basic lemmas about the transport operations -/

/-- `ingestRun` always records exactly its hand-off in the emission trace. -/
theorem ingestRun_emits (r : Run) (w : World) :
    (ingestRun r w).1.emits = w.emits ++ [Emit.runRec r] := by
  unfold ingestRun
  dsimp only
  split
  · rfl
  · unfold doFetch
    dsimp only
    cases hr : w.responses with
    | nil => rfl
    | cons a rest =>
      cases a with
      | success resp =>
        dsimp only
        split <;> rfl
      | reject m => rfl

/-- `ingestStep` always records exactly its hand-off in the emission trace. -/
theorem ingestStep_emits (s : Step) (w : World) :
    (ingestStep s w).emits = w.emits ++ [Emit.stepRec s] := by
  unfold ingestStep
  dsimp only
  split
  · rfl
  · split
    · rfl
    · unfold doFetch
      dsimp only
      cases hr : w.responses with
      | nil => rfl
      | cons a rest =>
        cases a with
        | success resp =>
          dsimp only
          split <;> rfl
        | reject m => rfl

/-- `ingestCandidates` always records exactly its hand-off in the emission
trace. -/
theorem ingestCandidates_emits (sid : String) (cs : List Candidate) (w : World) :
    (ingestCandidates sid cs w).emits = w.emits ++ [Emit.candidateBatch sid cs] := by
  unfold ingestCandidates
  dsimp only
  split
  · rfl
  · split
    · rfl
    · unfold doFetch
      dsimp only
      cases hr : w.responses with
      | nil => rfl
      | cons a rest =>
        cases a with
        | success resp =>
          dsimp only
          split <;> rfl
        | reject m => rfl

end XRay

namespace XRay

/-- `handleDegradation` always results in a set degraded flag and changes
nothing else. -/
theorem handleDegradation_spec (cs : ClientState) :
    handleDegradation cs = { cs with degraded := true } := by
  unfold handleDegradation
  split
  · rename_i h
    cases cs
    simp_all
  · rfl

/-- The shared catch behaviour: degrade exactly when configured to. -/
theorem degradeOnFailure_spec (cs : ClientState) :
    degradeOnFailure cs =
      if cs.config.degradeOnError then { cs with degraded := true } else cs := by
  unfold degradeOnFailure
  split <;> simp [handleDegradation_spec, *]

/-- Fields of the client state that no branch of `degradeOnFailure`
touches. -/
theorem degradeOnFailure_fields (cs : ClientState) :
    (degradeOnFailure cs).stepPosition = cs.stepPosition ∧
    (degradeOnFailure cs).currentRunId = cs.currentRunId ∧
    (degradeOnFailure cs).currentRun = cs.currentRun ∧
    (degradeOnFailure cs).config = cs.config ∧
    (degradeOnFailure cs).pendingSteps = cs.pendingSteps ∧
    (degradeOnFailure cs).pendingCandidates = cs.pendingCandidates ∧
    (cs.degraded = true → (degradeOnFailure cs).degraded = true) := by
  rw [degradeOnFailure_spec]
  split <;> exact ⟨rfl, rfl, rfl, rfl, rfl, rfl, fun h => by simp_all⟩

/-- `ingestRun` never touches the run context, the position counter, the
configuration or the pending queues, and never clears the degraded flag. -/
theorem ingestRun_cases (r : Run) (w : World) :
    (ingestRun r w).1.cs.stepPosition = w.cs.stepPosition ∧
    (ingestRun r w).1.cs.currentRunId = w.cs.currentRunId ∧
    (ingestRun r w).1.cs.currentRun = w.cs.currentRun ∧
    (ingestRun r w).1.cs.config = w.cs.config ∧
    (ingestRun r w).1.cs.pendingSteps = w.cs.pendingSteps ∧
    (ingestRun r w).1.cs.pendingCandidates = w.cs.pendingCandidates ∧
    (w.cs.degraded = true → (ingestRun r w).1.cs.degraded = true) := by
  unfold ingestRun
  dsimp only
  split
  · exact ⟨rfl, rfl, rfl, rfl, rfl, rfl, fun h => h⟩
  · unfold doFetch
    dsimp only
    cases hr : w.responses with
    | nil =>
      exact ⟨rfl, rfl, rfl, rfl, rfl, rfl, fun h => h⟩
    | cons a rest =>
      cases a with
      | success resp =>
        dsimp only
        split
        · exact ⟨rfl, rfl, rfl, rfl, rfl, rfl, fun h => h⟩
        · have hd := degradeOnFailure_fields w.cs
          exact ⟨hd.1, hd.2.1, hd.2.2.1, hd.2.2.2.1, hd.2.2.2.2.1, hd.2.2.2.2.2.1,
            hd.2.2.2.2.2.2⟩
      | reject m =>
        have hd := degradeOnFailure_fields w.cs
        exact ⟨hd.1, hd.2.1, hd.2.2.1, hd.2.2.2.1, hd.2.2.2.2.1, hd.2.2.2.2.2.1,
          hd.2.2.2.2.2.2⟩

/-- `ingestStep` never touches the run context, the position counter or
the configuration, and never clears the degraded flag. -/
theorem ingestStep_cases (s : Step) (w : World) :
    (ingestStep s w).cs.stepPosition = w.cs.stepPosition ∧
    (ingestStep s w).cs.currentRunId = w.cs.currentRunId ∧
    (ingestStep s w).cs.currentRun = w.cs.currentRun ∧
    (ingestStep s w).cs.config = w.cs.config ∧
    (w.cs.degraded = true → (ingestStep s w).cs.degraded = true) := by
  unfold ingestStep
  dsimp only
  split
  · exact ⟨rfl, rfl, rfl, rfl, fun h => h⟩
  · split
    · exact ⟨rfl, rfl, rfl, rfl, fun h => h⟩
    · unfold doFetch
      dsimp only
      cases hr : w.responses with
      | nil =>
        exact ⟨rfl, rfl, rfl, rfl, fun h => h⟩
      | cons a rest =>
        cases a with
        | success resp =>
          dsimp only
          split
          · exact ⟨rfl, rfl, rfl, rfl, fun h => h⟩
          · have hd := degradeOnFailure_fields w.cs
            exact ⟨hd.1, hd.2.1, hd.2.2.1, hd.2.2.2.1, hd.2.2.2.2.2.2⟩
        | reject m =>
          have hd := degradeOnFailure_fields w.cs
          exact ⟨hd.1, hd.2.1, hd.2.2.1, hd.2.2.2.1, hd.2.2.2.2.2.2⟩

/-- `ingestCandidates` never touches the run context, the position counter
or the configuration, and never clears the degraded flag. -/
theorem ingestCandidates_cases (sid : String) (cs : List Candidate) (w : World) :
    (ingestCandidates sid cs w).cs.stepPosition = w.cs.stepPosition ∧
    (ingestCandidates sid cs w).cs.currentRunId = w.cs.currentRunId ∧
    (ingestCandidates sid cs w).cs.currentRun = w.cs.currentRun ∧
    (ingestCandidates sid cs w).cs.config = w.cs.config ∧
    (w.cs.degraded = true → (ingestCandidates sid cs w).cs.degraded = true) := by
  unfold ingestCandidates
  dsimp only
  split
  · exact ⟨rfl, rfl, rfl, rfl, fun h => h⟩
  · split
    · exact ⟨rfl, rfl, rfl, rfl, fun h => h⟩
    · unfold doFetch
      dsimp only
      cases hr : w.responses with
      | nil =>
        exact ⟨rfl, rfl, rfl, rfl, fun h => h⟩
      | cons a rest =>
        cases a with
        | success resp =>
          dsimp only
          split
          · exact ⟨rfl, rfl, rfl, rfl, fun h => h⟩
          · have hd := degradeOnFailure_fields w.cs
            exact ⟨hd.1, hd.2.1, hd.2.2.1, hd.2.2.2.1, hd.2.2.2.2.2.2⟩
        | reject m =>
          have hd := degradeOnFailure_fields w.cs
          exact ⟨hd.1, hd.2.1, hd.2.2.1, hd.2.2.2.1, hd.2.2.2.2.2.2⟩

end XRay

namespace XRay

/-! ### No-op behaviour when degraded or unconfigured -/

/-- Converts the claim-level side condition into the boolean guard the
code tests. -/
theorem skip_cond_of (w : World)
    (h : w.cs.degraded = true ∨ w.cs.config.apiUrl = none) :
    (w.cs.degraded || w.cs.config.apiUrl.isNone) = true := by
  rcases h with h | h <;> simp [h]

/-- Under the guard, `ingestRun` records its hand-off and does nothing
else. -/
theorem ingestRun_skip (r : Run) (w : World)
    (h : (w.cs.degraded || w.cs.config.apiUrl.isNone) = true) :
    ingestRun r w = ({ w with emits := w.emits ++ [Emit.runRec r] }, Except.ok ()) := by
  unfold ingestRun
  dsimp only
  rw [if_pos h]

/-- Under the guard, `ingestStep` records its hand-off and does nothing
else — in particular it does not buffer the record. -/
theorem ingestStep_skip (s : Step) (w : World)
    (h : (w.cs.degraded || w.cs.config.apiUrl.isNone) = true) :
    ingestStep s w = { w with emits := w.emits ++ [Emit.stepRec s] } := by
  unfold ingestStep
  dsimp only
  rw [if_pos h]

/-- Under the guard, `ingestCandidates` records its hand-off and does
nothing else. -/
theorem ingestCandidates_skip (sid : String) (cs : List Candidate) (w : World)
    (h : (w.cs.degraded || w.cs.config.apiUrl.isNone) = true) :
    ingestCandidates sid cs w = { w with emits := w.emits ++ [Emit.candidateBatch sid cs] } := by
  unfold ingestCandidates
  dsimp only
  rw [if_pos h]

/-- Under the guard, `flush` is the identity: it neither sends nor clears
anything. -/
theorem flush_skip (w : World)
    (h : (w.cs.degraded || w.cs.config.apiUrl.isNone) = true) :
    flush w = w := by
  unfold flush
  dsimp only
  rw [if_pos h]

/-! ### Behaviour against a clean fetch oracle -/

/-- With a clean oracle, `ingestRun` succeeds, leaves the client state
unchanged, and the remaining oracle is still clean. -/
theorem ingestRun_clean (r : Run) (w : World)
    (hc : cleanResponses w.responses = true) :
    (ingestRun r w).2 = Except.ok () ∧ (ingestRun r w).1.cs = w.cs ∧
      cleanResponses (ingestRun r w).1.responses = true := by
  unfold ingestRun
  dsimp only
  split
  · exact ⟨rfl, rfl, hc⟩
  · unfold doFetch
    dsimp only
    cases hr : w.responses with
    | nil => exact ⟨rfl, rfl, rfl⟩
    | cons a rest =>
      rw [hr] at hc
      cases a with
      | success resp =>
        have h2 : resp.ok = true ∧ cleanResponses rest = true := by
          simpa [cleanResponses, FetchOutcome.isClean] using hc
        dsimp only
        rw [if_pos h2.1]
        exact ⟨rfl, rfl, h2.2⟩
      | reject m =>
        exfalso
        simp [cleanResponses, FetchOutcome.isClean] at hc

/-- A benign world lets `ingestRun` succeed, keeps the client state, and
stays benign. -/
theorem ingestRun_benign (r : Run) (w : World) (h : benign w) :
    (ingestRun r w).2 = Except.ok () ∧ (ingestRun r w).1.cs = w.cs ∧
      benign (ingestRun r w).1 := by
  rcases h with h | h
  · obtain ⟨h1, h2, h3⟩ := ingestRun_clean r w h
    exact ⟨h1, h2, Or.inl h3⟩
  · have hb : (w.cs.degraded || w.cs.config.apiUrl.isNone) = true := skip_cond_of w h
    rw [ingestRun_skip r w hb]
    refine ⟨rfl, rfl, Or.inr ?_⟩
    exact h

end XRay

namespace XRay

/-! ### The drain loop -/

/-- Draining a list of steps only extends the emission trace by one
hand-off per record. -/
theorem foldl_ingestStep_emits (l : List Step) (w : World) :
    (l.foldl (fun acc s => ingestStep s acc) w).emits = w.emits ++ l.map Emit.stepRec := by
  induction l generalizing w with
  | nil => simp
  | cons s rest ih =>
    rw [List.foldl_cons, ih, ingestStep_emits]
    simp

/-- Draining a list of candidate batches only extends the emission trace
by one hand-off per batch. -/
theorem foldl_ingestCandidates_emits (l : List (String × List Candidate)) (w : World) :
    (l.foldl (fun acc p => ingestCandidates p.1 p.2 acc) w).emits =
      w.emits ++ l.map (fun p => Emit.candidateBatch p.1 p.2) := by
  induction l generalizing w with
  | nil => simp
  | cons p rest ih =>
    rw [List.foldl_cons, ih, ingestCandidates_emits]
    simp

/-- `flush` only ever appends to the emission trace. -/
theorem flush_emits_extend (w : World) :
    ∃ d, (flush w).emits = w.emits ++ d := by
  unfold flush
  dsimp only
  split
  · exact ⟨[], by simp⟩
  · refine ⟨(w.cs.pendingSteps.filter stepHasKeys).map Emit.stepRec ++
      w.cs.pendingCandidates.map (fun p => Emit.candidateBatch p.1 p.2), ?_⟩
    rw [foldl_ingestCandidates_emits, foldl_ingestStep_emits]
    simp

/-- In asynchronous mode (healthy, configured), `ingestStep` only buffers:
it re-appends the record to the queue and issues no network call. -/
theorem ingestStep_async (s : Step) (w : World)
    (hd : w.cs.degraded = false) (ha : w.cs.config.apiUrl.isNone = false)
    (hasync : w.cs.config.enableAsyncIngestion = true) :
    ingestStep s w =
      { w with cs := { w.cs with pendingSteps := w.cs.pendingSteps ++ [s] },
               emits := w.emits ++ [Emit.stepRec s] } := by
  unfold ingestStep
  dsimp only
  rw [if_neg (by simp [hd, ha]), if_pos hasync]

/-- In asynchronous mode (healthy, configured), `ingestCandidates` only
buffers. -/
theorem ingestCandidates_async (sid : String) (cs : List Candidate) (w : World)
    (hd : w.cs.degraded = false) (ha : w.cs.config.apiUrl.isNone = false)
    (hasync : w.cs.config.enableAsyncIngestion = true) :
    ingestCandidates sid cs w =
      { w with cs := { w.cs with pendingCandidates := w.cs.pendingCandidates ++ [(sid, cs)] },
               emits := w.emits ++ [Emit.candidateBatch sid cs] } := by
  unfold ingestCandidates
  dsimp only
  rw [if_neg (by simp [hd, ha]), if_pos hasync]

/-- Drain loop over steps in asynchronous mode: everything is re-buffered
in order and no network call is issued. -/
theorem foldl_ingestStep_async (l : List Step) (w : World)
    (hd : w.cs.degraded = false) (ha : w.cs.config.apiUrl.isNone = false)
    (hasync : w.cs.config.enableAsyncIngestion = true) :
    l.foldl (fun acc s => ingestStep s acc) w =
      { w with cs := { w.cs with pendingSteps := w.cs.pendingSteps ++ l },
               emits := w.emits ++ l.map Emit.stepRec } := by
  induction l generalizing w with
  | nil =>
    simp
  | cons s rest ih =>
    rw [List.foldl_cons, ingestStep_async s w hd ha hasync,
      ih { w with cs := { w.cs with pendingSteps := w.cs.pendingSteps ++ [s] },
                  emits := w.emits ++ [Emit.stepRec s] } hd ha hasync]
    simp

/-- Drain loop over candidate batches in asynchronous mode. -/
theorem foldl_ingestCandidates_async (l : List (String × List Candidate)) (w : World)
    (hd : w.cs.degraded = false) (ha : w.cs.config.apiUrl.isNone = false)
    (hasync : w.cs.config.enableAsyncIngestion = true) :
    l.foldl (fun acc p => ingestCandidates p.1 p.2 acc) w =
      { w with cs := { w.cs with pendingCandidates := w.cs.pendingCandidates ++ l },
               emits := w.emits ++ l.map (fun p => Emit.candidateBatch p.1 p.2) } := by
  induction l generalizing w with
  | nil =>
    simp
  | cons p rest ih =>
    rw [List.foldl_cons, ingestCandidates_async p.1 p.2 w hd ha hasync,
      ih { w with cs := { w.cs with pendingCandidates := w.cs.pendingCandidates ++ [(p.1, p.2)] },
                  emits := w.emits ++ [Emit.candidateBatch p.1 p.2] } hd ha hasync]
    simp

/-- The full behaviour of `flush` in asynchronous mode: the cleared queues
are exactly re-populated through the `ingest*` buffering branch, so the
client state comes back unchanged and only the emission trace grows — in
particular no network call is issued and the queues are not drained. -/
theorem flush_async (w : World)
    (hd : w.cs.degraded = false) (ha : w.cs.config.apiUrl.isNone = false)
    (hasync : w.cs.config.enableAsyncIngestion = true) :
    flush w =
      { w with emits := w.emits ++ w.cs.pendingSteps.map Emit.stepRec ++
          w.cs.pendingCandidates.map (fun p => Emit.candidateBatch p.1 p.2) } := by
  unfold flush
  dsimp only
  rw [if_neg (by simp [hd, ha])]
  have hfilter : w.cs.pendingSteps.filter stepHasKeys = w.cs.pendingSteps := by
    simp [stepHasKeys]
  rw [hfilter,
    foldl_ingestStep_async w.cs.pendingSteps
      { w with cs := { w.cs with pendingSteps := [], pendingCandidates := [] } } hd ha hasync]
  dsimp only
  rw [foldl_ingestCandidates_async w.cs.pendingCandidates
      { w with cs := { w.cs with pendingSteps := [] ++ w.cs.pendingSteps,
                                 pendingCandidates := [] },
               emits := w.emits ++ w.cs.pendingSteps.map Emit.stepRec } hd ha hasync]
  simp

end XRay

namespace XRay

/-! ### Shape of a single `step` invocation -/

/-- With no active run, `step` is literally the bare stage call. -/
theorem stepClient_none (ty : StepType) (nm : String) (opts : StepOptions)
    (fn : StageFn) (w : World) (h : w.cs.currentRunId = none) :
    stepClient ty nm opts fn w = fn w := by
  unfold stepClient
  rw [h]

/-- With an active run, `step` runs the active body. -/
theorem stepClient_some (ty : StepType) (nm : String) (opts : StepOptions)
    (fn : StageFn) (w : World) (rid : String) (h : w.cs.currentRunId = some rid) :
    stepClient ty nm opts fn w = stepActive ty nm opts fn w := by
  unfold stepClient
  rw [h]

/-- The active body on a successful, world-preserving stage: record built
from `okRecord`, emitted, then the conditional candidate batch. -/
theorem stepActive_const_ok (ty : StepType) (nm : String) (opts : StepOptions)
    (v : JSValue) (w : World) :
    stepActive ty nm opts (constStage (Except.ok v)) w =
      (candPhase opts ("uuid-" ++ toString w.nextId)
        (opts.captureLevel.getD w.cs.config.defaultCaptureLevel)
        (ingestStep (okRecord ty nm opts v w) (postStage w)),
       Except.ok v) := rfl

/-- The active body on a failing, world-preserving stage: record built
from `errRecord`, emitted, then the original error is re-raised. -/
theorem stepActive_const_err (ty : StepType) (nm : String) (opts : StepOptions)
    (e : String) (w : World) :
    stepActive ty nm opts (constStage (Except.error e)) w =
      (ingestStep (errRecord ty nm opts w) (postStage w), Except.error e) := rfl

/-- What the candidate phase adds to the emission trace. -/
theorem candPhase_emits (opts : StepOptions) (sid : String) (cl : CaptureLevel)
    (w : World) :
    (candPhase opts sid cl w).emits = w.emits ++ candTail opts sid cl := by
  unfold candPhase candTail
  cases opts.candidates with
  | none => simp
  | some cs =>
    dsimp only
    split <;> simp [ingestCandidates_emits, *]

/-- The candidate phase never emits step records. -/
theorem stepEmits_candTail (opts : StepOptions) (sid : String) (cl : CaptureLevel) :
    stepEmits (candTail opts sid cl) = [] := by
  unfold candTail
  cases opts.candidates with
  | none => rfl
  | some cs =>
    dsimp only
    split <;> rfl

/-- The candidate batches the candidate phase emits. -/
theorem candidateEmits_candTail (opts : StepOptions) (sid : String) (cl : CaptureLevel) :
    candidateEmits (candTail opts sid cl) =
      (match opts.candidates with
       | some cs => if cl = CaptureLevel.FULL then [(sid, cs)] else []
       | none => []) := by
  unfold candTail
  cases opts.candidates with
  | none => rfl
  | some cs =>
    dsimp only
    split <;> rfl

/-- The step-record projection distributes over concatenation. -/
theorem stepEmits_append (l1 l2 : List Emit) :
    stepEmits (l1 ++ l2) = stepEmits l1 ++ stepEmits l2 := by
  simp [stepEmits]

/-- The candidate-batch projection distributes over concatenation. -/
theorem candidateEmits_append (l1 l2 : List Emit) :
    candidateEmits (l1 ++ l2) = candidateEmits l1 ++ candidateEmits l2 := by
  simp [candidateEmits]

/-- Recovering the appended delta from an extended trace. -/
theorem newEmits_of_append (w wFinal : World) (d : List Emit)
    (h : wFinal.emits = w.emits ++ d) :
    newEmits w wFinal = d := by
  unfold newEmits
  rw [h]
  simp

end XRay

namespace XRay

/-! ### The end-of-run emission -/

/-- The updated run record carries the end tick. -/
theorem endUpdateWorld_fst (cr : Run) (w : World) :
    (endUpdateWorld cr w).1 = { cr with endedAt := some w.clock } := rfl

/-- `endUpdateWorld` leaves the emission trace alone. -/
theorem endUpdateWorld_emits (cr : Run) (w : World) :
    (endUpdateWorld cr w).2.emits = w.emits := rfl

/-- On a benign world the end-of-run emission hands the original outcome
through unchanged and appends exactly the updated run record to the
emission trace. -/
theorem endRunEmission_benign {T : Type} (o : Except String T) (w : World)
    (cr : Run) (hcr : w.cs.currentRun = some cr) (hb : benign w) :
    (endRunEmission o w).2 = o ∧
    (endRunEmission o w).1.emits = w.emits ++ [Emit.runRec (endUpdateWorld cr w).1] := by
  unfold endRunEmission
  rw [hcr]
  dsimp only
  have hb2 : benign (endUpdateWorld cr w).2 := hb
  rcases hiu : ingestRun (endUpdateWorld cr w).1 (endUpdateWorld cr w).2 with ⟨w3, r3⟩
  have hok := (ingestRun_benign (endUpdateWorld cr w).1 (endUpdateWorld cr w).2 hb2).1
  rw [hiu] at hok
  have hem := ingestRun_emits (endUpdateWorld cr w).1 (endUpdateWorld cr w).2
  rw [hiu] at hem
  rw [endUpdateWorld_emits] at hem
  subst hok
  exact ⟨rfl, hem⟩

/-- `finishRun` keeps the emission trace of the flushed world. -/
theorem finishRun_emits (w : World) : (finishRun w).emits = (flush w).emits := rfl

/-- After `finishRun` the run context is cleared and the counter reset,
whatever happened before. -/
theorem finishRun_reset (w : World) :
    (finishRun w).cs.currentRunId = none ∧ (finishRun w).cs.currentRun = none ∧
      (finishRun w).cs.stepPosition = 0 := ⟨rfl, rfl, rfl⟩

/-- The run record `startRun` installs. -/
theorem startRun_fst (pn pv : String) (opts : RunOptions) (w : World) :
    (startRun pn pv opts w).1 =
      { runId := "uuid-" ++ toString w.nextId, pipelineName := pn, pipelineVersion := pv,
        environment := opts.environment.getD Environment.PROD, startedAt := w.clock,
        endedAt := none, metadata := opts.metadata } := rfl

/-- The world `startRun` leaves behind: context installed, counter reset,
nothing else of the client state touched. -/
theorem startRun_snd (pn pv : String) (opts : RunOptions) (w : World) :
    (startRun pn pv opts w).2.cs.currentRunId = some ("uuid-" ++ toString w.nextId) ∧
    (startRun pn pv opts w).2.cs.currentRun = some (startRun pn pv opts w).1 ∧
    (startRun pn pv opts w).2.cs.stepPosition = 0 ∧
    (startRun pn pv opts w).2.cs.config = w.cs.config ∧
    (startRun pn pv opts w).2.cs.degraded = w.cs.degraded ∧
    (startRun pn pv opts w).2.cs.pendingSteps = w.cs.pendingSteps ∧
    (startRun pn pv opts w).2.cs.pendingCandidates = w.cs.pendingCandidates ∧
    (startRun pn pv opts w).2.responses = w.responses ∧
    (startRun pn pv opts w).2.emits = w.emits ∧
    (startRun pn pv opts w).2.net = w.net ∧
    (startRun pn pv opts w).2.clock = w.clock + 1 :=
  ⟨rfl, rfl, rfl, rfl, rfl, rfl, rfl, rfl, rfl, rfl, rfl⟩

end XRay

namespace XRay

/-! ### Claim C1 -/

/-- C1 (counterexample): the claim that the caller of `run` always
observes exactly the stage function's error is false.  With an endpoint
configured and an oracle that lets the run-created submission succeed but
fails the run-updated submission with HTTP 500, a stage failing with
"boom" surfaces to the caller as the transport error built from the 500
response — the instrumentation replaces the pipeline error. -/
theorem C1_counterexample :
    (runClient "p" "v" (constOutcome (Except.error "boom" : Except String Unit))
        noRunOptions updateFailsWorld).2
      = Except.error (httpErrorMsg { ok := false, status := 500, statusText := "ERR" })
    ∧ httpErrorMsg { ok := false, status := 500, statusText := "ERR" } ≠ "boom" := by
  constructor
  · rfl
  · decide

/-- C1 (amended): when the stage function fails, `run` performs the
end-time/run-updated emission and re-raises the original failure
unchanged, provided the run-record submissions cannot themselves throw
(clean transport, or degraded client, or no endpoint configured); when
the run-updated submission itself fails, its transport error replaces the
stage error for the caller (see the counterexample). -/
theorem C1_reraise {T : Type} (pn pv : String) (opts : RunOptions) (e : String)
    (w : World) (h : benign w) :
    (runClient pn pv (constOutcome (Except.error e : Except String T)) opts w).2
      = Except.error e
  ∧ ∃ r1 rest,
      (runClient pn pv (constOutcome (Except.error e : Except String T)) opts w).1.emits
        = w.emits ++ Emit.runRec (startRun pn pv opts w).1 :: Emit.runRec r1 :: rest
      ∧ r1.runId = (startRun pn pv opts w).1.runId
      ∧ (startRun pn pv opts w).1.endedAt = none
      ∧ r1.endedAt.isSome = true := by
  have hb2 : benign (startRun pn pv opts w).2 := h
  rcases hir : ingestRun (startRun pn pv opts w).1 (startRun pn pv opts w).2 with ⟨w1, r1o⟩
  obtain ⟨hok, hcs, hb1⟩ := ingestRun_benign (startRun pn pv opts w).1 (startRun pn pv opts w).2 hb2
  rw [hir] at hok hcs hb1
  dsimp only at hok hcs hb1
  subst hok
  have hcr : w1.cs.currentRun = some (startRun pn pv opts w).1 := by
    rw [hcs]
    exact (startRun_snd pn pv opts w).2.1
  obtain ⟨ho, hem⟩ :=
    endRunEmission_benign (Except.error e : Except String T) w1 (startRun pn pv opts w).1 hcr hb1
  have hrc : runClient pn pv (constOutcome (Except.error e : Except String T)) opts w
      = (finishRun (endRunEmission (Except.error e : Except String T) w1).1,
         (endRunEmission (Except.error e : Except String T) w1).2) := by
    unfold runClient runBody
    dsimp only
    rw [hir]
    dsimp only [constOutcome]
  rw [hrc]
  constructor
  · exact ho
  · obtain ⟨d, hd⟩ := flush_emits_extend (endRunEmission (Except.error e : Except String T) w1).1
    refine ⟨{ (startRun pn pv opts w).1 with endedAt := some w1.clock }, d, ?_, rfl, rfl, rfl⟩
    have he1 := ingestRun_emits (startRun pn pv opts w).1 (startRun pn pv opts w).2
    rw [hir] at he1
    dsimp only at he1
    have he2 : (startRun pn pv opts w).2.emits = w.emits := rfl
    dsimp only
    rw [finishRun_emits, hd, hem, endUpdateWorld_fst, he1, he2]
    simp

/-- C1 (witness): the amended theorem applied at a concrete benign world. -/
theorem C1_witness :
    benign activeWorld ∧
    (runClient "p" "v" (constOutcome (Except.error "boom" : Except String Unit))
        noRunOptions activeWorld).2 = Except.error "boom" :=
  ⟨Or.inl rfl, (C1_reraise "p" "v" noRunOptions "boom" activeWorld (Or.inl rfl)).1⟩

end XRay

namespace XRay

/-! ### Claim C2 -/

/-- C2: with asynchronous ingestion enabled on a healthy configured
client, the end-of-run drain does not submit anything: `flush` passes
each cleared record back through `ingestStep` / `ingestCandidates`, whose
asynchronous branch re-buffers it, so the client state (the two queues
included) is exactly unchanged and no network call is issued — the
buffered records are never submitted to the transport, contradicting the
specified drain. -/
theorem C2_flush_rebuffers (w : World)
    (hd : w.cs.degraded = false) (ha : w.cs.config.apiUrl.isNone = false)
    (hasync : w.cs.config.enableAsyncIngestion = true) :
    (flush w).net = w.net ∧ (flush w).cs = w.cs := by
  rw [flush_async w hd ha hasync]
  exact ⟨rfl, rfl⟩

/-- C2 (witness): the failing behaviour evaluated at a concrete world
with one buffered step and one buffered candidate batch. -/
theorem C2_witness :
    queuedWorld.cs.degraded = false ∧
    queuedWorld.cs.config.apiUrl.isNone = false ∧
    queuedWorld.cs.config.enableAsyncIngestion = true ∧
    (flush queuedWorld).net = queuedWorld.net ∧
    (flush queuedWorld).cs = queuedWorld.cs :=
  ⟨rfl, rfl, rfl, (C2_flush_rebuffers queuedWorld rfl rfl rfl).1,
    (C2_flush_rebuffers queuedWorld rfl rfl rfl).2⟩

end XRay

namespace XRay

/-! ### Claim C3 -/

/-- On a degraded world, `ingestStep` leaves the network trace and the
degraded flag alone. -/
theorem ingestStep_net_degraded (s : Step) (w : World) (h : w.cs.degraded = true) :
    (ingestStep s w).net = w.net ∧ (ingestStep s w).cs.degraded = true := by
  have hc : (w.cs.degraded || w.cs.config.apiUrl.isNone) = true := by rw [h]; simp
  rw [ingestStep_skip s w hc]
  exact ⟨rfl, h⟩

/-- On a degraded world, `ingestCandidates` leaves the network trace and
the degraded flag alone. -/
theorem ingestCandidates_net_degraded (sid : String) (cs : List Candidate) (w : World)
    (h : w.cs.degraded = true) :
    (ingestCandidates sid cs w).net = w.net ∧ (ingestCandidates sid cs w).cs.degraded = true := by
  have hc : (w.cs.degraded || w.cs.config.apiUrl.isNone) = true := by rw [h]; simp
  rw [ingestCandidates_skip sid cs w hc]
  exact ⟨rfl, h⟩

/-- On a degraded world, the candidate phase does nothing observable on
the network. -/
theorem candPhase_net_degraded (opts : StepOptions) (sid : String) (cl : CaptureLevel)
    (w : World) (h : w.cs.degraded = true) :
    (candPhase opts sid cl w).net = w.net ∧ (candPhase opts sid cl w).cs.degraded = true := by
  unfold candPhase
  cases opts.candidates with
  | none => exact ⟨rfl, h⟩
  | some cs =>
    dsimp only
    split
    · exact ingestCandidates_net_degraded sid cs w h
    · exact ⟨rfl, h⟩

/-- On a degraded world, the active step body issues no network call and
keeps the flag. -/
theorem stepActive_net_degraded (ty : StepType) (nm : String) (so : StepOptions)
    (o : Except String JSValue) (w : World) (h : w.cs.degraded = true) :
    (stepActive ty nm so (constStage o) w).1.net = w.net ∧
    (stepActive ty nm so (constStage o) w).1.cs.degraded = true := by
  cases o with
  | ok v =>
    rw [stepActive_const_ok]
    dsimp only
    obtain ⟨hn1, hd1⟩ := ingestStep_net_degraded (okRecord ty nm so v w) (postStage w) h
    obtain ⟨hn2, hd2⟩ := candPhase_net_degraded so ("uuid-" ++ toString w.nextId)
      (so.captureLevel.getD w.cs.config.defaultCaptureLevel)
      (ingestStep (okRecord ty nm so v w) (postStage w)) hd1
    constructor
    · rw [hn2, hn1]
      rfl
    · exact hd2
  | error e =>
    rw [stepActive_const_err]
    dsimp only
    exact ingestStep_net_degraded (errRecord ty nm so w) (postStage w) h

/-- On a degraded world, `step` issues no network call and keeps the
flag. -/
theorem stepClient_net_degraded (ty : StepType) (nm : String) (so : StepOptions)
    (o : Except String JSValue) (w : World) (h : w.cs.degraded = true) :
    (stepClient ty nm so (constStage o) w).1.net = w.net ∧
    (stepClient ty nm so (constStage o) w).1.cs.degraded = true := by
  cases hrid : w.cs.currentRunId with
  | none =>
    rw [stepClient_none ty nm so (constStage o) w hrid]
    exact ⟨rfl, h⟩
  | some rid =>
    rw [stepClient_some ty nm so (constStage o) w rid hrid]
    exact stepActive_net_degraded ty nm so o w h

/-- On a degraded world, the end-of-run emission issues no network call
and keeps the flag. -/
theorem endRunEmission_net_degraded {T : Type} (o : Except String T) (w : World)
    (h : w.cs.degraded = true) :
    (endRunEmission o w).1.net = w.net ∧ (endRunEmission o w).1.cs.degraded = true := by
  unfold endRunEmission
  cases hcr : w.cs.currentRun with
  | none => exact ⟨rfl, h⟩
  | some cr =>
    dsimp only
    have hcnd : ((endUpdateWorld cr w).2.cs.degraded ||
        (endUpdateWorld cr w).2.cs.config.apiUrl.isNone) = true := by
      have h2 : (endUpdateWorld cr w).2.cs.degraded = true := h
      rw [h2]
      simp
    rw [ingestRun_skip (endUpdateWorld cr w).1 (endUpdateWorld cr w).2 hcnd]
    exact ⟨rfl, h⟩

/-- On a degraded world, the body of `run` issues no network call and
keeps the flag. -/
theorem runBody_net_degraded {T : Type} (run0 : Run) (u : Except String T) (w : World)
    (h : w.cs.degraded = true) :
    (runBody run0 (constOutcome u) w).1.net = w.net ∧
    (runBody run0 (constOutcome u) w).1.cs.degraded = true := by
  unfold runBody
  have hcnd : (w.cs.degraded || w.cs.config.apiUrl.isNone) = true := by rw [h]; simp
  rw [ingestRun_skip run0 w hcnd]
  dsimp only [constOutcome]
  exact endRunEmission_net_degraded u { w with emits := w.emits ++ [Emit.runRec run0] } h

/-- On a degraded world, a whole wrapped run issues no network call and
keeps the flag. -/
theorem runClient_net_degraded {T : Type} (pn pv : String) (ro : RunOptions)
    (u : Except String T) (w : World) (h : w.cs.degraded = true) :
    (runClient pn pv (constOutcome u) ro w).1.net = w.net ∧
    (runClient pn pv (constOutcome u) ro w).1.cs.degraded = true := by
  obtain ⟨hn, hd⟩ := runBody_net_degraded (startRun pn pv ro w).1 u (startRun pn pv ro w).2 h
  have hfin : (runClient pn pv (constOutcome u) ro w).1
      = finishRun (runBody (startRun pn pv ro w).1 (constOutcome u) (startRun pn pv ro w).2).1 := rfl
  rw [hfin]
  have hcnd : ((runBody (startRun pn pv ro w).1 (constOutcome u) (startRun pn pv ro w).2).1.cs.degraded ||
      (runBody (startRun pn pv ro w).1 (constOutcome u) (startRun pn pv ro w).2).1.cs.config.apiUrl.isNone) = true := by
    rw [hd]
    simp
  constructor
  · show (flush (runBody (startRun pn pv ro w).1 (constOutcome u) (startRun pn pv ro w).2).1).net = w.net
    rw [flush_skip _ hcnd]
    exact hn
  · show (flush (runBody (startRun pn pv ro w).1 (constOutcome u) (startRun pn pv ro w).2).1).cs.degraded = true
    rw [flush_skip _ hcnd]
    exact hd

/-- C3: degradation is a permanent one-way switch.  On any degraded
client: every transport operation (run, step, candidate submission and
the drain) is a no-op — client state untouched, no network call, no error
— the wrappers `step` and `run` likewise issue no network call, and no
operation ever clears the flag.  Moreover (last conjunct) a failing
transport submission on a degrade-on-error configuration sets the flag. -/
theorem C3_degradation_permanent
    (w : World) (r : Run) (s : Step) (sid : String) (cs : List Candidate)
    (ty : StepType) (nm : String) (so : StepOptions) (o : Except String JSValue)
    (pn pv : String) (ro : RunOptions) (u : Except String Unit)
    (w2 : World) (r2 : Run) (m : String) (rest : List FetchOutcome)
    (h : w.cs.degraded = true)
    (h2a : w2.cs.config.degradeOnError = true)
    (h2b : w2.cs.config.apiUrl.isNone = false)
    (h2c : w2.responses = FetchOutcome.reject m :: rest) :
    (ingestRun r w).1.cs = w.cs ∧ (ingestRun r w).1.net = w.net ∧
      (ingestRun r w).2 = Except.ok () ∧
    (ingestStep s w).cs = w.cs ∧ (ingestStep s w).net = w.net ∧
    (ingestCandidates sid cs w).cs = w.cs ∧ (ingestCandidates sid cs w).net = w.net ∧
    flush w = w ∧
    (stepClient ty nm so (constStage o) w).1.net = w.net ∧
    (stepClient ty nm so (constStage o) w).1.cs.degraded = true ∧
    (runClient pn pv (constOutcome u) ro w).1.net = w.net ∧
    (runClient pn pv (constOutcome u) ro w).1.cs.degraded = true ∧
    (ingestRun r2 w2).1.cs.degraded = true := by
  have hc : (w.cs.degraded || w.cs.config.apiUrl.isNone) = true := by rw [h]; simp
  refine ⟨?_, ?_, ?_, ?_, ?_, ?_, ?_, ?_, ?_, ?_, ?_, ?_, ?_⟩
  · rw [ingestRun_skip r w hc]
  · rw [ingestRun_skip r w hc]
  · rw [ingestRun_skip r w hc]
  · rw [ingestStep_skip s w hc]
  · rw [ingestStep_skip s w hc]
  · rw [ingestCandidates_skip sid cs w hc]
  · rw [ingestCandidates_skip sid cs w hc]
  · exact flush_skip w hc
  · exact (stepClient_net_degraded ty nm so o w h).1
  · exact (stepClient_net_degraded ty nm so o w h).2
  · exact (runClient_net_degraded pn pv ro u w h).1
  · exact (runClient_net_degraded pn pv ro u w h).2
  · cases hd2 : w2.cs.degraded with
    | true => exact (ingestRun_cases r2 w2).2.2.2.2.2.2 hd2
    | false =>
      unfold ingestRun
      dsimp only
      rw [if_neg (by rw [hd2, h2b]; simp)]
      unfold doFetch
      dsimp only
      rw [h2c]
      dsimp only
      rw [degradeOnFailure_spec, h2a]
      simp

/-- C3 (witness): the permanence theorem applied at a concrete degraded
world holding buffered records, and the trigger applied at a concrete
healthy world whose fetch rejects. -/
theorem C3_witness :
    degradedWorld.cs.degraded = true ∧
    flush degradedWorld = degradedWorld ∧
    (ingestRun sampleRun degradedWorld).1.cs = degradedWorld.cs ∧
    (ingestStep sampleStep degradedWorld).net = degradedWorld.net ∧
    (ingestRun sampleRun rejectWorld).1.cs.degraded = true := by
  have h := C3_degradation_permanent degradedWorld sampleRun sampleStep "uuid-9"
    [sampleCandidate 0] StepType.FILTER "f" noStepOptions (Except.ok JSValue.scalarLike)
    "p" "v" noRunOptions (Except.ok ()) rejectWorld sampleRun "ECONNREFUSED" []
    rfl rfl rfl rfl
  exact ⟨rfl, h.2.2.2.2.2.2.2.1, h.1, h.2.2.2.2.1, h.2.2.2.2.2.2.2.2.2.2.2.2⟩

end XRay

namespace XRay

/-! ### The emission delta of one wrapped step -/

/-- A successful, world-preserving stage adds exactly one step hand-off
(the `okRecord`) followed by the candidate tail. -/
theorem stepClient_ok_newEmits (ty : StepType) (nm : String) (opts : StepOptions)
    (v : JSValue) (w : World) (rid : String) (h : w.cs.currentRunId = some rid) :
    newEmits w (stepClient ty nm opts (constStage (Except.ok v)) w).1
      = Emit.stepRec (okRecord ty nm opts v w) ::
          candTail opts ("uuid-" ++ toString w.nextId)
            (opts.captureLevel.getD w.cs.config.defaultCaptureLevel) := by
  rw [stepClient_some ty nm opts (constStage (Except.ok v)) w rid h, stepActive_const_ok]
  dsimp only
  apply newEmits_of_append
  rw [candPhase_emits, ingestStep_emits]
  rw [List.append_assoc]
  rfl

/-- A failing, world-preserving stage adds exactly one step hand-off (the
`errRecord`) and nothing else. -/
theorem stepClient_err_newEmits (ty : StepType) (nm : String) (opts : StepOptions)
    (e : String) (w : World) (rid : String) (h : w.cs.currentRunId = some rid) :
    newEmits w (stepClient ty nm opts (constStage (Except.error e)) w).1
      = [Emit.stepRec (errRecord ty nm opts w)] := by
  rw [stepClient_some ty nm opts (constStage (Except.error e)) w rid h, stepActive_const_err]
  dsimp only
  apply newEmits_of_append
  rw [ingestStep_emits]
  rfl

end XRay

namespace XRay

/-! ### Claim C4 -/

/-- C4: during an active run, a failing stage makes `step` build and emit
exactly one Step record with `candidatesOut = 0`, `dropRatio = 1` and
`candidatesIn` equal to the value computed before the failure — which is
its initialisation 0, the counts being assigned only after the stage
resolves — and then re-raise the original failure unchanged. -/
theorem C4_failing_step (w : World) (rid : String) (ty : StepType) (nm : String)
    (opts : StepOptions) (e : String) (h : w.cs.currentRunId = some rid) :
    (stepClient ty nm opts (constStage (Except.error e)) w).2 = Except.error e
  ∧ newEmits w (stepClient ty nm opts (constStage (Except.error e)) w).1
      = [Emit.stepRec (errRecord ty nm opts w)]
  ∧ (errRecord ty nm opts w).candidatesOut = 0
  ∧ (errRecord ty nm opts w).dropRatio = 1
  ∧ (errRecord ty nm opts w).candidatesIn = 0 := by
  refine ⟨?_, stepClient_err_newEmits ty nm opts e w rid h, rfl, rfl, rfl⟩
  rw [stepClient_some ty nm opts (constStage (Except.error e)) w rid h, stepActive_const_err]

/-- C4 (witness): the theorem applied at a concrete mid-run world. -/
theorem C4_witness :
    activeWorld.cs.currentRunId = some "uuid-0" ∧
    (stepClient StepType.FILTER "price-filter" noStepOptions
        (constStage (Except.error "boom")) activeWorld).2 = Except.error "boom" ∧
    newEmits activeWorld (stepClient StepType.FILTER "price-filter" noStepOptions
        (constStage (Except.error "boom")) activeWorld).1
      = [Emit.stepRec (errRecord StepType.FILTER "price-filter" noStepOptions activeWorld)] :=
  ⟨rfl,
   (C4_failing_step activeWorld "uuid-0" StepType.FILTER "price-filter" noStepOptions "boom" rfl).1,
   (C4_failing_step activeWorld "uuid-0" StepType.FILTER "price-filter" noStepOptions "boom" rfl).2.1⟩

end XRay

namespace XRay

/-! ### Claim C5 -/

/-- C5: with no active run, `step` is a pure pass-through: the whole
invocation IS the bare stage call (so for a stage that touches nothing
the world comes back exactly unchanged — no record, no queue append, no
network call, no counter change — and the result is the stage's own
outcome, unmodified). -/
theorem C5_passthrough (ty : StepType) (nm : String) (opts : StepOptions)
    (fn : StageFn) (o : Except String JSValue) (w : World)
    (h : w.cs.currentRunId = none) :
    stepClient ty nm opts fn w = fn w
  ∧ (stepClient ty nm opts (constStage o) w).1 = w
  ∧ (stepClient ty nm opts (constStage o) w).2 = o := by
  refine ⟨stepClient_none ty nm opts fn w h, ?_, ?_⟩ <;>
    rw [stepClient_none ty nm opts (constStage o) w h] <;> rfl

/-- C5 (witness): the theorem applied at a concrete idle world. -/
theorem C5_witness :
    updateFailsWorld.cs.currentRunId = none ∧
    stepClient StepType.FILTER "f" noStepOptions
        (constStage (Except.ok JSValue.scalarLike)) updateFailsWorld
      = constStage (Except.ok JSValue.scalarLike) updateFailsWorld :=
  ⟨rfl,
   (C5_passthrough StepType.FILTER "f" noStepOptions
     (constStage (Except.ok JSValue.scalarLike)) (Except.ok JSValue.scalarLike)
     updateFailsWorld rfl).1⟩

end XRay

namespace XRay

/-! ### Claim C6 -/

/-- The candidate phase never touches the position counter or the run
context. -/
theorem candPhase_cases (opts : StepOptions) (sid : String) (cl : CaptureLevel)
    (w : World) :
    (candPhase opts sid cl w).cs.stepPosition = w.cs.stepPosition ∧
    (candPhase opts sid cl w).cs.currentRunId = w.cs.currentRunId := by
  unfold candPhase
  cases opts.candidates with
  | none => exact ⟨rfl, rfl⟩
  | some cs =>
    dsimp only
    split
    · exact ⟨(ingestCandidates_cases sid cs w).1, (ingestCandidates_cases sid cs w).2.1⟩
    · exact ⟨rfl, rfl⟩

/-- One wrapped step during an active run increments the position counter
by exactly one and keeps the run context, whether the stage succeeds or
fails. -/
theorem stepClient_const_counter (ty : StepType) (nm : String) (opts : StepOptions)
    (o : Except String JSValue) (w : World) (rid : String)
    (h : w.cs.currentRunId = some rid) :
    (stepClient ty nm opts (constStage o) w).1.cs.stepPosition = w.cs.stepPosition + 1 ∧
    (stepClient ty nm opts (constStage o) w).1.cs.currentRunId = some rid := by
  rw [stepClient_some ty nm opts (constStage o) w rid h]
  cases o with
  | ok v =>
    rw [stepActive_const_ok]
    dsimp only
    have h1 := ingestStep_cases (okRecord ty nm opts v w) (postStage w)
    have h2 := candPhase_cases opts ("uuid-" ++ toString w.nextId)
      (opts.captureLevel.getD w.cs.config.defaultCaptureLevel)
      (ingestStep (okRecord ty nm opts v w) (postStage w))
    constructor
    · rw [h2.1, h1.1]
      rfl
    · rw [h2.2, h1.2.1]
      exact h
  | error e =>
    rw [stepActive_const_err]
    dsimp only
    have h1 := ingestStep_cases (errRecord ty nm opts w) (postStage w)
    constructor
    · rw [h1.1]
      rfl
    · rw [h1.2.1]
      exact h

/-- Prepending a step hand-off to a trace. -/
theorem stepEmits_cons_step (s : Step) (l : List Emit) :
    stepEmits (Emit.stepRec s :: l) = s :: stepEmits l := rfl

/-- One wrapped step during an active run emits exactly one step record,
carrying the pre-increment counter value as its position. -/
theorem stepClient_const_positions (ty : StepType) (nm : String) (opts : StepOptions)
    (o : Except String JSValue) (w : World) (rid : String)
    (h : w.cs.currentRunId = some rid) :
    emittedPositions (newEmits w (stepClient ty nm opts (constStage o) w).1)
      = [w.cs.stepPosition] := by
  cases o with
  | ok v =>
    rw [stepClient_ok_newEmits ty nm opts v w rid h]
    unfold emittedPositions
    rw [stepEmits_cons_step, stepEmits_candTail]
    rfl
  | error e =>
    rw [stepClient_err_newEmits ty nm opts e w rid h]
    rfl

/-- One wrapped step with a world-preserving stage only appends to the
emission trace. -/
theorem stepClient_const_emits_extend (ty : StepType) (nm : String) (opts : StepOptions)
    (o : Except String JSValue) (w : World) :
    ∃ d, (stepClient ty nm opts (constStage o) w).1.emits = w.emits ++ d := by
  cases hrid : w.cs.currentRunId with
  | none =>
    rw [stepClient_none ty nm opts (constStage o) w hrid]
    exact ⟨[], by simp [constStage]⟩
  | some rid =>
    cases o with
    | ok v =>
      refine ⟨Emit.stepRec (okRecord ty nm opts v w) ::
        candTail opts ("uuid-" ++ toString w.nextId)
          (opts.captureLevel.getD w.cs.config.defaultCaptureLevel), ?_⟩
      rw [stepClient_some ty nm opts (constStage (Except.ok v)) w rid hrid, stepActive_const_ok]
      dsimp only
      rw [candPhase_emits, ingestStep_emits, List.append_assoc]
      rfl
    | error e =>
      refine ⟨[Emit.stepRec (errRecord ty nm opts w)], ?_⟩
      rw [stepClient_some ty nm opts (constStage (Except.error e)) w rid hrid, stepActive_const_err]
      dsimp only
      rw [ingestStep_emits]
      rfl

/-- A sequence of wrapped steps only appends to the emission trace. -/
theorem runSteps_emits_extend (invs : List StepInv) (w : World) :
    ∃ d, (runSteps invs w).emits = w.emits ++ d := by
  induction invs generalizing w with
  | nil => exact ⟨[], by simp [runSteps]⟩
  | cons inv rest ih =>
    obtain ⟨d1, h1⟩ := stepClient_const_emits_extend inv.stepType inv.stepName inv.opts inv.outcome w
    obtain ⟨d2, h2⟩ := ih (stepClient inv.stepType inv.stepName inv.opts (constStage inv.outcome) w).1
    refine ⟨d1 ++ d2, ?_⟩
    simp only [runSteps]
    rw [h2, h1, List.append_assoc]

/-- The positions-projection distributes over concatenation. -/
theorem emittedPositions_append (l1 l2 : List Emit) :
    emittedPositions (l1 ++ l2) = emittedPositions l1 ++ emittedPositions l2 := by
  simp [emittedPositions, stepEmits_append]

/-- Executing a sequence of wrapped steps from any mid-run state assigns
the consecutive positions `p, p+1, …` in call order, advances the counter
by the number of invocations, and keeps the run context. -/
theorem runSteps_spec (invs : List StepInv) (w : World) (rid : String)
    (h : w.cs.currentRunId = some rid) :
    emittedPositions (newEmits w (runSteps invs w))
      = List.range' w.cs.stepPosition invs.length
  ∧ (runSteps invs w).cs.stepPosition = w.cs.stepPosition + invs.length
  ∧ (runSteps invs w).cs.currentRunId = some rid := by
  induction invs generalizing w with
  | nil =>
    refine ⟨?_, rfl, h⟩
    simp [runSteps, newEmits, emittedPositions, stepEmits, List.range']
  | cons inv rest ih =>
    have hcnt := stepClient_const_counter inv.stepType inv.stepName inv.opts inv.outcome w rid h
    have hpos := stepClient_const_positions inv.stepType inv.stepName inv.opts inv.outcome w rid h
    obtain ⟨ih1, ih2, ih3⟩ :=
      ih (stepClient inv.stepType inv.stepName inv.opts (constStage inv.outcome) w).1 hcnt.2
    obtain ⟨d1, h1⟩ := stepClient_const_emits_extend inv.stepType inv.stepName inv.opts inv.outcome w
    obtain ⟨d2, h2⟩ := runSteps_emits_extend rest
      (stepClient inv.stepType inv.stepName inv.opts (constStage inv.outcome) w).1
    have hfinal : (runSteps (inv :: rest) w).emits = w.emits ++ (d1 ++ d2) := by
      simp only [runSteps]
      rw [h2, h1, List.append_assoc]
    have hne : newEmits w (runSteps (inv :: rest) w) = d1 ++ d2 :=
      newEmits_of_append _ _ _ hfinal
    have hd1 : newEmits w (stepClient inv.stepType inv.stepName inv.opts (constStage inv.outcome) w).1 = d1 :=
      newEmits_of_append _ _ _ h1
    have hd2 : newEmits (stepClient inv.stepType inv.stepName inv.opts (constStage inv.outcome) w).1
        (runSteps rest (stepClient inv.stepType inv.stepName inv.opts (constStage inv.outcome) w).1) = d2 :=
      newEmits_of_append _ _ _ h2
    refine ⟨?_, ?_, ?_⟩
    · rw [hne, emittedPositions_append, ← hd1, hpos]
      rw [hd2] at ih1
      rw [hcnt.1] at ih1
      rw [ih1]
      simp [List.range'_succ]
    · simp only [runSteps]
      rw [ih2, hcnt.1]
      simp only [List.length_cons]
      omega
    · simp only [runSteps]
      exact ih3

/-- C6: within a single run (counter freshly reset to 0), successive step
invocations are assigned exactly the positions `0, 1, 2, …` in call
order — strictly increasing, no gaps, no reuse — whether the individual
stages succeed or fail; and the counter is reset to 0 both when a run
starts and when it ends. -/
theorem C6_positions (invs : List StepInv) (w : World) (rid : String)
    (pn pv : String) (ro : RunOptions) (u : Except String Unit) (w2 : World)
    (h : w.cs.currentRunId = some rid) (h0 : w.cs.stepPosition = 0) :
    emittedPositions (newEmits w (runSteps invs w)) = List.range invs.length
  ∧ (runSteps invs w).cs.stepPosition = invs.length
  ∧ (startRun pn pv ro w2).2.cs.stepPosition = 0
  ∧ (runClient pn pv (constOutcome u) ro w2).1.cs.stepPosition = 0 := by
  obtain ⟨h1, h2, h3⟩ := runSteps_spec invs w rid h
  rw [h0] at h1 h2
  refine ⟨?_, by simpa using h2, rfl, rfl⟩
  rw [List.range_eq_range']
  exact h1

/-- C6 (witness): two invocations (one success, one failure) in a fresh
run get positions 0 and 1, and the counter ends at 2. -/
theorem C6_witness :
    activeWorld.cs.currentRunId = some "uuid-0" ∧
    activeWorld.cs.stepPosition = 0 ∧
    emittedPositions (newEmits activeWorld (runSteps demoInvs activeWorld)) = List.range 2 ∧
    (runSteps demoInvs activeWorld).cs.stepPosition = 2 :=
  ⟨rfl, rfl,
   (C6_positions demoInvs activeWorld "uuid-0" "p" "v" noRunOptions (Except.ok ())
     activeWorld rfl rfl).1,
   (C6_positions demoInvs activeWorld "uuid-0" "p" "v" noRunOptions (Except.ok ())
     activeWorld rfl rfl).2.1⟩

end XRay

namespace XRay

/-! ### Claim C7 -/

/-- The count derivation of the code coincides with the amended spec-side
formulas. -/
theorem deriveCounts_spec (v : JSValue) (c : Option (List Candidate)) :
    (deriveCounts v c).1 = specCandidatesIn v c ∧
    (deriveCounts v c).2 = specCandidatesOut v ∧
    computeDropRatio (deriveCounts v c).1 (deriveCounts v c).2 = specDropRatio v c := by
  cases v <;> cases c <;> exact ⟨rfl, rfl, rfl⟩

/-- C7 (counterexample): the claim that `candidatesIn` is the supplied
candidate list's length whenever a list was provided is false for scalar
results: with two supplied candidates and a scalar result, the built
record has `candidatesIn = 1`, not 2. -/
theorem C7_counterexample :
    (stepEmits (newEmits activeWorld (stepClient StepType.SELECTION "pick" twoCandOptions
        (constStage (Except.ok JSValue.scalarLike)) activeWorld).1)).map Step.candidatesIn
      = [1]
  ∧ (twoCandOptions.candidates.getD []).length = 2
  ∧ (1 : Nat) ≠ 2 := ⟨rfl, rfl, by decide⟩

/-- C7 (amended): for every successful step invocation during an active
run, the built record's `candidatesOut` follows the stated precedence
(sequence length, else exposed length value, else 1); `candidatesIn` is —
for sequence results — the supplied list's length when provided, else
`candidatesOut`; for length-exposing object results the supplied list's
length when provided and non-zero, else `candidatesOut`; for all other
results always 1 (a supplied list is ignored); and
`dropRatio = 1 − out/in` when the in-count is positive, else 0. -/
theorem C7_success_counts (ty : StepType) (nm : String) (opts : StepOptions) (v : JSValue)
    (w : World) (rid : String) (h : w.cs.currentRunId = some rid) :
    (stepEmits (newEmits w (stepClient ty nm opts (constStage (Except.ok v)) w).1)).map
        (fun s => (s.candidatesIn, s.candidatesOut, s.dropRatio))
      = [(specCandidatesIn v opts.candidates, specCandidatesOut v,
          specDropRatio v opts.candidates)]
  ∧ (stepClient ty nm opts (constStage (Except.ok v)) w).2 = Except.ok v := by
  constructor
  · rw [stepClient_ok_newEmits ty nm opts v w rid h, stepEmits_cons_step, stepEmits_candTail]
    obtain ⟨hin, hout, hr⟩ := deriveCounts_spec v opts.candidates
    simp only [okRecord, List.map_cons, List.map_nil]
    rw [hr, hin, hout]
  · rw [stepClient_some ty nm opts (constStage (Except.ok v)) w rid h, stepActive_const_ok]

/-- C7 (witness): the amended theorem at a concrete input (two supplied
candidates, array result of length 1). -/
theorem C7_witness :
    activeWorld.cs.currentRunId = some "uuid-0" ∧
    (stepEmits (newEmits activeWorld (stepClient StepType.FILTER "f" twoCandOptions
        (constStage (Except.ok (JSValue.array 1))) activeWorld).1)).map
        (fun s => (s.candidatesIn, s.candidatesOut, s.dropRatio))
      = [(specCandidatesIn (JSValue.array 1) twoCandOptions.candidates,
          specCandidatesOut (JSValue.array 1),
          specDropRatio (JSValue.array 1) twoCandOptions.candidates)] :=
  ⟨rfl, (C7_success_counts StepType.FILTER "f" twoCandOptions (JSValue.array 1)
    activeWorld "uuid-0" rfl).1⟩

end XRay

namespace XRay

/-! ### Claim C8 -/

/-- A step hand-off contributes no candidate batch. -/
theorem candidateEmits_cons_step (s : Step) (l : List Emit) :
    candidateEmits (Emit.stepRec s :: l) = candidateEmits l := rfl

/-- C8 (counterexample): the claim quantifies over every step invocation,
but a failing invocation at effective capture level `FULL` with a
candidate list supplied emits no candidate batch (the candidate emission
sits on the success path only), falsifying the "if" direction of the
biconditional. -/
theorem C8_counterexample :
    fullCandOptions.captureLevel.getD activeWorld.cs.config.defaultCaptureLevel
      = CaptureLevel.FULL
  ∧ fullCandOptions.candidates.isSome = true
  ∧ candidateEmits (newEmits activeWorld (stepClient StepType.RANKING "rank" fullCandOptions
      (constStage (Except.error "boom")) activeWorld).1) = [] := ⟨rfl, rfl, rfl⟩

/-- C8 (amended): for every SUCCESSFUL step invocation during an active
run, a candidate batch is emitted iff the effective capture level is
`FULL` and a candidate list was supplied, and then it is exactly one
batch holding exactly the supplied candidates, tied to the emitted step
record's identifier; the invocation emits exactly one step record; and a
failing invocation emits no candidate batch at any capture level. -/
theorem C8_candidate_batches (ty : StepType) (nm : String) (opts : StepOptions)
    (v : JSValue) (e : String) (w : World) (rid : String)
    (h : w.cs.currentRunId = some rid) :
    candidateEmits (newEmits w (stepClient ty nm opts (constStage (Except.ok v)) w).1)
      = (if opts.captureLevel.getD w.cs.config.defaultCaptureLevel = CaptureLevel.FULL
            ∧ opts.candidates.isSome = true
         then (stepEmits (newEmits w (stepClient ty nm opts (constStage (Except.ok v)) w).1)).map
                (fun s => (s.stepId, opts.candidates.getD []))
         else [])
  ∧ (stepEmits (newEmits w (stepClient ty nm opts (constStage (Except.ok v)) w).1)).length = 1
  ∧ candidateEmits (newEmits w (stepClient ty nm opts (constStage (Except.error e)) w).1)
      = [] := by
  refine ⟨?_, ?_, ?_⟩
  · rw [stepClient_ok_newEmits ty nm opts v w rid h, candidateEmits_cons_step,
      candidateEmits_candTail, stepEmits_cons_step, stepEmits_candTail]
    cases hc : opts.candidates with
    | none => simp
    | some cs =>
      by_cases hcl : opts.captureLevel.getD w.cs.config.defaultCaptureLevel = CaptureLevel.FULL
      · simp [hcl, okRecord]
      · simp [hcl]
  · rw [stepClient_ok_newEmits ty nm opts v w rid h, stepEmits_cons_step, stepEmits_candTail]
    rfl
  · rw [stepClient_err_newEmits ty nm opts e w rid h]
    rfl

/-- C8 (witness): the amended theorem at a concrete input (`FULL`, one
candidate supplied, successful array result). -/
theorem C8_witness :
    activeWorld.cs.currentRunId = some "uuid-0" ∧
    candidateEmits (newEmits activeWorld (stepClient StepType.RANKING "rank" fullCandOptions
        (constStage (Except.ok (JSValue.array 1))) activeWorld).1)
      = (if fullCandOptions.captureLevel.getD activeWorld.cs.config.defaultCaptureLevel
              = CaptureLevel.FULL
            ∧ fullCandOptions.candidates.isSome = true
         then (stepEmits (newEmits activeWorld (stepClient StepType.RANKING "rank" fullCandOptions
              (constStage (Except.ok (JSValue.array 1))) activeWorld).1)).map
                (fun s => (s.stepId, fullCandOptions.candidates.getD []))
         else []) :=
  ⟨rfl, (C8_candidate_batches StepType.RANKING "rank" fullCandOptions (JSValue.array 1)
    "boom" activeWorld "uuid-0" rfl).1⟩

end XRay

namespace XRay

/-! ### Claim C9 -/

/-- C9: a supplied EMPTY candidate list is honoured by the array branch
(`candidatesIn = 0`) but ignored by the object-with-length branch, where
the JS `||` treats the length 0 as falsy and `candidatesIn` falls back to
`candidatesOut = m` — the two result shapes treat the same supplied empty
list differently. -/
theorem C9_empty_candidate_list (w : World) (rid : String) (ty : StepType) (nm : String)
    (opts : StepOptions) (n m : Nat) (h : w.cs.currentRunId = some rid)
    (hc : opts.candidates = some []) :
    (stepEmits (newEmits w (stepClient ty nm opts
        (constStage (Except.ok (JSValue.array n))) w).1)).map Step.candidatesIn = [0]
  ∧ (stepEmits (newEmits w (stepClient ty nm opts
        (constStage (Except.ok (JSValue.objWithLength m))) w).1)).map Step.candidatesIn = [m]
  ∧ (stepEmits (newEmits w (stepClient ty nm opts
        (constStage (Except.ok (JSValue.objWithLength m))) w).1)).map Step.candidatesOut = [m] := by
  refine ⟨?_, ?_, ?_⟩ <;>
    rw [stepClient_ok_newEmits _ _ _ _ w rid h, stepEmits_cons_step, stepEmits_candTail] <;>
    simp [okRecord, deriveCounts, hc]

/-- C9 (witness): the theorem at a concrete input (empty list supplied,
array result of length 3 vs length-3 object result). -/
theorem C9_witness :
    activeWorld.cs.currentRunId = some "uuid-0" ∧
    emptyCandOptions.candidates = some [] ∧
    (stepEmits (newEmits activeWorld (stepClient StepType.FILTER "f" emptyCandOptions
        (constStage (Except.ok (JSValue.array 3))) activeWorld).1)).map Step.candidatesIn = [0] ∧
    (stepEmits (newEmits activeWorld (stepClient StepType.FILTER "f" emptyCandOptions
        (constStage (Except.ok (JSValue.objWithLength 3))) activeWorld).1)).map Step.candidatesIn = [3] :=
  ⟨rfl, rfl,
   (C9_empty_candidate_list activeWorld "uuid-0" StepType.FILTER "f" emptyCandOptions 3 3 rfl rfl).1,
   (C9_empty_candidate_list activeWorld "uuid-0" StepType.FILTER "f" emptyCandOptions 3 3 rfl rfl).2.1⟩

end XRay

namespace XRay

/-! ### Claim C10 -/

/-- The end-of-run emission never touches the configuration or the
pending queues, and never clears the degraded flag. -/
theorem endRunEmission_cases {T : Type} (o : Except String T) (w : World) :
    (endRunEmission o w).1.cs.config = w.cs.config ∧
    (endRunEmission o w).1.cs.pendingSteps = w.cs.pendingSteps ∧
    (endRunEmission o w).1.cs.pendingCandidates = w.cs.pendingCandidates ∧
    (w.cs.degraded = true → (endRunEmission o w).1.cs.degraded = true) := by
  unfold endRunEmission
  cases hcr : w.cs.currentRun with
  | none => exact ⟨rfl, rfl, rfl, fun hh => hh⟩
  | some cr =>
    dsimp only
    rcases hir : ingestRun (endUpdateWorld cr w).1 (endUpdateWorld cr w).2 with ⟨w3, r3⟩
    have hc := ingestRun_cases (endUpdateWorld cr w).1 (endUpdateWorld cr w).2
    rw [hir] at hc
    dsimp only at hc
    cases r3 with
    | ok a =>
      exact ⟨hc.2.2.2.1, hc.2.2.2.2.1, hc.2.2.2.2.2.1, hc.2.2.2.2.2.2⟩
    | error e2 =>
      exact ⟨hc.2.2.2.1, hc.2.2.2.2.1, hc.2.2.2.2.2.1, hc.2.2.2.2.2.2⟩

/-- The body of `run` (with a state-preserving stage) never touches the
configuration or the pending queues, and never clears the degraded
flag. -/
theorem runBody_cases {T : Type} (run0 : Run) (u : Except String T) (w : World) :
    (runBody run0 (constOutcome u) w).1.cs.config = w.cs.config ∧
    (runBody run0 (constOutcome u) w).1.cs.pendingSteps = w.cs.pendingSteps ∧
    (runBody run0 (constOutcome u) w).1.cs.pendingCandidates = w.cs.pendingCandidates ∧
    (w.cs.degraded = true → (runBody run0 (constOutcome u) w).1.cs.degraded = true) := by
  unfold runBody
  rcases hir : ingestRun run0 w with ⟨w1, r1⟩
  have hc := ingestRun_cases run0 w
  rw [hir] at hc
  dsimp only at hc
  cases r1 with
  | error e =>
    exact ⟨hc.2.2.2.1, hc.2.2.2.2.1, hc.2.2.2.2.2.1, hc.2.2.2.2.2.2⟩
  | ok a =>
    dsimp only [constOutcome]
    have he := endRunEmission_cases u w1
    exact ⟨he.1.trans hc.2.2.2.1, he.2.1.trans hc.2.2.2.2.1,
      he.2.2.1.trans hc.2.2.2.2.2.1, fun hh => he.2.2.2 (hc.2.2.2.2.2.2 hh)⟩

/-- C10: when the client is degraded or no endpoint is configured at
end-of-run flush time, `flush` returns immediately without clearing the
pending queues (it is the identity), so records buffered earlier survive
the whole run teardown: a subsequent `run` on the same instance still
sees them in both queues. -/
theorem C10_skip_flush (w : World) (pn pv : String) (ro : RunOptions)
    (u : Except String Unit)
    (h : w.cs.degraded = true ∨ w.cs.config.apiUrl = none) :
    flush w = w
  ∧ (runClient pn pv (constOutcome u) ro w).1.cs.pendingSteps = w.cs.pendingSteps
  ∧ (runClient pn pv (constOutcome u) ro w).1.cs.pendingCandidates = w.cs.pendingCandidates := by
  have hcond := skip_cond_of w h
  have hb := runBody_cases (startRun pn pv ro w).1 u (startRun pn pv ro w).2
  have hcondB : ((runBody (startRun pn pv ro w).1 (constOutcome u) (startRun pn pv ro w).2).1.cs.degraded
      || (runBody (startRun pn pv ro w).1 (constOutcome u) (startRun pn pv ro w).2).1.cs.config.apiUrl.isNone)
      = true := by
    rcases h with hdeg | hurl
    · rw [hb.2.2.2 hdeg]
      simp
    · have hcfg : (runBody (startRun pn pv ro w).1 (constOutcome u) (startRun pn pv ro w).2).1.cs.config
          = w.cs.config := hb.1
      rw [hcfg, hurl]
      simp
  refine ⟨flush_skip w hcond, ?_, ?_⟩
  · show (flush (runBody (startRun pn pv ro w).1 (constOutcome u) (startRun pn pv ro w).2).1).cs.pendingSteps
      = w.cs.pendingSteps
    rw [flush_skip _ hcondB]
    exact hb.2.1
  · show (flush (runBody (startRun pn pv ro w).1 (constOutcome u) (startRun pn pv ro w).2).1).cs.pendingCandidates
      = w.cs.pendingCandidates
    rw [flush_skip _ hcondB]
    exact hb.2.2.1

/-- C10 (witness): the theorem at a concrete degraded world holding one
buffered step and one buffered candidate batch. -/
theorem C10_witness :
    (degradedWorld.cs.degraded = true ∨ degradedWorld.cs.config.apiUrl = none) ∧
    flush degradedWorld = degradedWorld ∧
    (runClient "p" "v" (constOutcome (Except.ok () : Except String Unit)) noRunOptions
        degradedWorld).1.cs.pendingSteps = degradedWorld.cs.pendingSteps :=
  ⟨Or.inl rfl,
   (C10_skip_flush degradedWorld "p" "v" noRunOptions (Except.ok ()) (Or.inl rfl)).1,
   (C10_skip_flush degradedWorld "p" "v" noRunOptions (Except.ok ()) (Or.inl rfl)).2.1⟩

end XRay
